import Mathlib

/-!
# Verification of tendon.js binding-resolution core

A shallow embedding of the binding-resolution and change-propagation engine
of `src/tendon.js` (the `Tendon` constructor, `Tendon.prototype.ctx`, and the
built-in adapters `subscribe`, `publish`, `uuid`, `listen`, `auto-render`),
together with theorems settling the specification's claims about it.

JavaScript values are modelled by the inductive type `JSVal`; machine-level
concerns that no claim touches (array expando properties, `NaN`, object
reference identity) are noted where they are simplified.  Fallible operations
(`hasOwnProperty` / property access on `null` or `undefined`, strict-mode
writes to primitives) return `Except JSErr` so that "throws" versus "returns"
is observable.
-/

/-- Defunctionalised JavaScript functions.  The engine only ever calls a
context-supplied function abstractly (`target[prop].apply(target, args)`),
so we model callables as a small closed family with an interpreter
`applyFn`; theorems about calls quantify over `JSFn`. -/
inductive JSFn where
  /-- Returns the array of the arguments it received. -/
  | argsToArr
  /-- Returns its `i`-th argument (`undefined` when out of range). -/
  | proj (i : Nat)
  /-- Returns its `this` receiver. -/
  | thisFn
  /-- Always returns `null`. -/
  | constNull
deriving DecidableEq

/-- JavaScript runtime values, as far as the binding engine observes them. -/
inductive JSVal where
  | null
  | undefined
  | bool (b : Bool)
  | num (n : Int)
  | str (s : String)
  | arr (elems : List JSVal)
  | obj (fields : List (String × JSVal))
  | fn (f : JSFn)

/-- JavaScript exceptions relevant to the engine (strict-mode `TypeError`s). -/
inductive JSErr where
  | typeError (msg : String)

/-- Interpreter for the defunctionalised callables: `applyFn f thisv args`
is `f.apply(thisv, args)`. -/
def applyFn : JSFn → JSVal → List JSVal → JSVal
  | .argsToArr, _, args => .arr args
  | .proj i, _, args => args.getD i .undefined
  | .thisFn, thisv, _ => thisv
  | .constNull, _, _ => .null

/-- JavaScript truthiness (`if (value)`); `NaN` is not modelled. -/
def truthy : JSVal → Bool
  | .null => false
  | .undefined => false
  | .bool b => b
  | .num n => n != 0
  | .str s => s ≠ ""
  | .arr _ => true
  | .obj _ => true
  | .fn _ => true

/-- String.prototype.split with a one-character separator, character by
character on the underlying list (JS `"".split(c)` gives `[""]`, a trailing
separator yields a trailing empty field — both preserved). -/
def splitCharAux (sep : Char) : List Char → List (List Char)
  | [] => [[]]
  | c :: rest =>
    match splitCharAux sep rest with
    | [] => [[]]
    | field :: fields =>
      if c = sep then [] :: field :: fields else (c :: field) :: fields

/-- JS `s.split(sep)` for a single-character separator. -/
def splitChar (sep : Char) (s : String) : List String :=
  (splitCharAux sep s.data).map (fun cs => ⟨cs⟩)

/-- JS `list.join(sep)` for a single-character separator. -/
def joinChar (sep : Char) : List String → String
  | [] => ""
  | [s] => s
  | s :: rest => s ++ sep.toString ++ joinChar sep rest

/-- JS `String.prototype.trim` (whitespace stripped from both ends). -/
def jsTrim (s : String) : String :=
  ⟨((s.data.dropWhile (·.isWhitespace)).reverse.dropWhile (·.isWhitespace)).reverse⟩

/-- JS `Array.prototype.pop` split into the remaining list and the popped
element: `popLast xs = (xs without its last element, last element)`.  The
source only pops results of `split`, which are never empty; on `[]` we return
the empty string (the source guards that case with `last || ''`). -/
def popLast : List String → List String × String
  | [] => ([], "")
  | [x] => ([], x)
  | x :: rest =>
    let r := popLast rest
    (x :: r.1, r.2)

/-- Strict canonical decimal numeral, used for JS string/array index keys
(`"0"`, `"17"`; no leading zeros, no sign). -/
def decAux : List Char → Nat → Option Nat
  | [], acc => some acc
  | c :: rest, acc =>
    if c.isDigit then decAux rest (acc * 10 + (c.toNat - '0'.toNat)) else none

/-- Parse a canonical decimal index key. -/
def decStrToNat? (s : String) : Option Nat :=
  match s.data with
  | [] => none
  | ['0'] => some 0
  | '0' :: _ :: _ => none
  | cs => decAux cs 0

/-- JS `v.hasOwnProperty(k)`: objects check their own fields; strings and
arrays own `length` and their index keys; functions own `length` and `name`;
numbers and booleans own nothing; `null`/`undefined` throw a `TypeError`. -/
def hasOwn : JSVal → String → Except JSErr Bool
  | .null, _ => .error (.typeError "Cannot read properties of null")
  | .undefined, _ => .error (.typeError "Cannot read properties of undefined")
  | .obj fields, k => .ok (fields.any (fun kv => kv.1 == k))
  | .str s, k =>
    .ok (k == "length" ||
      (match decStrToNat? k with
       | some i => decide (i < s.length)
       | none => false))
  | .arr es, k =>
    .ok (k == "length" ||
      (match decStrToNat? k with
       | some i => decide (i < es.length)
       | none => false))
  | .fn _, k => .ok (k == "length" || k == "name")
  | .num _, _ => .ok false
  | .bool _, _ => .ok false

/-- JS `v[k]` read: association lookup on objects (`undefined` when absent);
`length`/index reads on strings and arrays; `null`/`undefined` throw. -/
def getProp : JSVal → String → Except JSErr JSVal
  | .null, _ => .error (.typeError "Cannot read properties of null")
  | .undefined, _ => .error (.typeError "Cannot read properties of undefined")
  | .obj fields, k =>
    .ok (((fields.find? (fun kv => kv.1 == k)).map (fun kv => kv.2)).getD .undefined)
  | .str s, k =>
    .ok (if k == "length" then .num s.length
      else match decStrToNat? k with
      | some i =>
        match s.data.get? i with
        | some c => .str ⟨[c]⟩
        | none => .undefined
      | none => .undefined)
  | .arr es, k =>
    .ok (if k == "length" then .num es.length
      else match decStrToNat? k with
      | some i => es.getD i .undefined
      | none => .undefined)
  | .fn _, k => .ok (if k == "length" then .num 0 else if k == "name" then .str "" else .undefined)
  | .num _, _ => .ok .undefined
  | .bool _, _ => .ok .undefined

/-- Update-or-append on an association list, mirroring a JS property write
(existing key updated in place, new key appended in insertion order). -/
def setField : List (String × JSVal) → String → JSVal → List (String × JSVal)
  | [], k, v => [(k, v)]
  | (k', v') :: rest, k, v =>
    if k' == k then (k, v) :: rest else (k', v') :: setField rest k v

/-- JS `v[k] = value` under `'use strict'`: objects get the field written;
array index writes update in place (array expando keys and `length` writes
are not modelled — no claim exercises them); functions accept writes but we
store no fields on them; writes to primitives, `null` and `undefined` throw
a `TypeError`. -/
def setProp : JSVal → String → JSVal → Except JSErr JSVal
  | .obj fields, k, v => .ok (.obj (setField fields k v))
  | .arr es, k, v =>
    .ok (.arr (match decStrToNat? k with
      | some i => es.set i v
      | none => es))
  | .null, _, _ => .error (.typeError "Cannot set properties of null")
  | .undefined, _, _ => .error (.typeError "Cannot set properties of undefined")
  | .str _, _, _ => .error (.typeError "Cannot assign to read only property")
  | .num _, _, _ => .error (.typeError "Cannot create property on number")
  | .bool _, _, _ => .error (.typeError "Cannot create property on boolean")
  | .fn f, _, _ => .ok (.fn f)

/-- The property-chain loop of `Tendon.prototype.ctx` (tendon.js lines
248-259): follow `parts` from `start`, requiring each segment to be an own
property of its holder.  `ok none` is the `console.error` + `return null`
short-circuit for an absent segment; `error` is a thrown `TypeError`
(holder `null`/`undefined`). -/
def walk : JSVal → List String → Except JSErr (Option JSVal)
  | target, [] => .ok (some target)
  | target, part :: rest =>
    match hasOwn target part with
    | .error e => .error e
    | .ok false => .ok none
    | .ok true =>
      match getProp target part with
      | .error e => .error e
      | .ok next => walk next rest

/-- Pure rendering of the in-place mutation `target[property] = value`:
the object reached by traversing `parts` (each an own property, as `walk`
established) is replaced by `newTarget` inside `root`.  Aliasing within the
context is not modelled: the traversal path is the only handle the engine
has on the target. -/
def writeBack : JSVal → List String → JSVal → JSVal
  | _, [], newTarget => newTarget
  | .obj fields, part :: rest, newTarget =>
    .obj (fields.map (fun kv =>
      if kv.1 == part then (kv.1, writeBack kv.2 rest newTarget) else kv))
  | .arr es, part :: rest, newTarget =>
    .arr (match decStrToNat? part with
      | some i =>
        match es.get? i with
        | some old => es.set i (writeBack old rest newTarget)
        | none => es
      | none => es)
  | v, _ :: _, _ => v

/-- Everything `Tendon.prototype.ctx` does after the literal-fallback check
(tendon.js lines 248-279): run the property-chain loop, trim the parsed
inline arguments, then call / set / get on the final property.  `parts`,
`prop`, `cmdArgs0` and `directArgs` are the local variables of the source,
already parsed; the result pairs the returned value with the (possibly
updated) context. -/
def ctxCore (context : JSVal) (parts : List String) (prop : String)
    (cmdArgs0 : List String) (directArgs : List JSVal) :
    Except JSErr (JSVal × JSVal) :=
  match walk context parts with
  | .error e => .error e
  | .ok none => .ok (.null, context)
  | .ok (some target) =>
    let cmdArgs := cmdArgs0.map jsTrim
    match getProp target prop with
    | .error e => .error e
    | .ok (.fn f) =>
      .ok (applyFn f target (cmdArgs.map JSVal.str ++ directArgs), context)
    | .ok pv =>
      let value := directArgs.headD JSVal.undefined
      if truthy value then
        match setProp target prop value with
        | .error e => .error e
        | .ok target' => .ok (value, writeBack context parts target')
      else
        .ok (pv, context)

/-- Shallow embedding of `Tendon.prototype.ctx` (tendon.js lines 229-280).
`directArgs` is `slice.call(arguments, 1)`, so the source's `value`
parameter is its head (`undefined` when the caller passed only `path`).
Returns the resolved / assigned / computed value together with the context
after any assignment. -/
def ctx (context : JSVal) (path : String) (directArgs : List JSVal) :
    Except JSErr (JSVal × JSVal) :=
  if path = "" then .ok (.null, context)
  else
    let pl := popLast (splitChar '.' path)
    let parts := pl.1
    let last := pl.2
    let command := splitChar ':' last
    let prop := command.headD ""
    let rest := joinChar ':' (command.drop 1)
    let cmdArgs0 := splitChar ',' rest
    if parts.isEmpty then
      match hasOwn context last with
      | .error e => .error e
      | .ok false => .ok (.str path, context)
      | .ok true => ctxCore context parts prop cmdArgs0 directArgs
    else
      ctxCore context parts prop cmdArgs0 directArgs

/-- A DOM element, as far as the engine observes it: its attribute map
(`$el.attr` read/write).  jQuery returns `undefined` for a missing
attribute, modelled as `none`. -/
structure Elem where
  attrs : List (String × String)

/-- jQuery `$el.attr(k)` (read). -/
def attrGet (el : Elem) (k : String) : Option String :=
  ((el.attrs.find? (fun kv => kv.1 == k)).map (fun kv => kv.2))

/-- Update-or-append for string attributes, mirroring `$el.attr(k, v)`. -/
def attrSetField : List (String × String) → String → String → List (String × String)
  | [], k, v => [(k, v)]
  | (k', v') :: rest, k, v =>
    if k' == k then (k, v) :: rest else (k', v') :: attrSetField rest k v

/-- jQuery `$el.attr(k, v)` (write). -/
def attrSet (el : Elem) (k v : String) : Elem :=
  ⟨attrSetField el.attrs k v⟩

/-- JS falsiness of a string-or-undefined value (`!uuid`): `undefined` and
the empty string are falsy. -/
def jsFalsyOptStr : Option String → Bool
  | none => true
  | some s => s == ""

/-- Decimal digits of `n`, least significant first; the first argument is
structural fuel (`n` itself suffices since `n / 10 < n` for positive `n`). -/
def natToRevDigits : Nat → Nat → List Nat
  | 0, _ => []
  | _ + 1, 0 => []
  | fuel + 1, n + 1 => ((n + 1) % 10) :: natToRevDigits fuel ((n + 1) / 10)

/-- JS `String(n)` for a non-negative integer (underscore's `++idCounter + ''`
only ever renders positive counters). -/
def natRepr (n : Nat) : String :=
  if n = 0 then "0" else ⟨((natToRevDigits n n).reverse.map Nat.digitChar)⟩

/-- Underscore's `_.uniqueId(pre)`: bump the module-wide counter and return
`pre + String(counter)` together with the new counter. -/
def uniqueId (pre : String) (counter : Nat) : String × Nat :=
  (pre ++ natRepr (counter + 1), counter + 1)

/-- `Adapters.uuid.method` (tendon.js lines 470-481): if the element's
identity attribute value `uuid` is falsy, write a fresh `_.uniqueId(pre)`
token to the `pre + "uuid"` attribute; otherwise leave the element alone.
Threads the `_.uniqueId` counter. -/
def uuidMethod (pre : String) (el : Elem) (uuid : Option String) (counter : Nat) :
    Elem × Nat :=
  if jsFalsyOptStr uuid then
    let r := uniqueId pre counter
    (attrSet el (pre ++ "uuid") r.1, r.2)
  else
    (el, counter)

/-- The identity operation on an element: run `Adapters.uuid.method` with the
element's current identity attribute (as the engine does on `init`) and read
the attribute back, which is how `publish` and `subscribe` obtain the token. -/
def identify (pre : String) (el : Elem) (counter : Nat) : String × Elem × Nat :=
  let r := uuidMethod pre el (attrGet el (pre ++ "uuid")) counter
  ((attrGet r.1 (pre ++ "uuid")).getD "", r.1, r.2)

/-- The options payload delivered to a subscription handler; `source` is
`options.source`, with `.undefined` for an absent field. -/
structure SubOptions where
  source : JSVal

/-- JS strict equality `v === attr` against a string-or-undefined attribute
value (the only `===` the engine performs; object identity never arises). -/
def strictEqAttr : JSVal → Option String → Bool
  | .str s, some t => s == t
  | .undefined, none => true
  | _, _ => false

/-- The echo guard of the subscription handler (tendon.js line 600):
`options && options.source === uuid`. -/
def subscribeGuard (uuidAttr : Option String) (options : Option SubOptions) : Bool :=
  match options with
  | some o => strictEqAttr o.source uuidAttr
  | none => false

/-- The event callback registered by `Adapters.subscribe` (tendon.js lines
596-614): read the element's identity attribute, suppress the event when the
guard fires, otherwise invoke every `change:js` handler bound to the element
with `[$el, model, changed, options]`.  The result is the list of handler
invocations performed (the element itself, being fixed, is omitted from each
log entry). -/
def subscribeCallback {α : Type} (uuidAttr : Option String) (methods : List α)
    (model changed : JSVal) (options : Option SubOptions) :
    List (α × JSVal × JSVal × Option SubOptions) :=
  if subscribeGuard uuidAttr options then []
  else methods.map (fun m => (m, model, changed, options))

/-- Attribute value as a JS value: `undefined` when the attribute is absent. -/
def attrToVal : Option String → JSVal
  | some s => .str s
  | none => .undefined

/-- The `forEach` of `Adapters.publish`: call `self.ctx(pub, val, opts)` for
each parsed publish target, threading the context and logging each returned
value. -/
def publishEach (val opts : JSVal) : JSVal → List String → Except JSErr (List JSVal × JSVal)
  | context, [] => .ok ([], context)
  | context, pub :: rest =>
    match ctx context pub [val, opts] with
    | .error e => .error e
    | .ok (r, context') =>
      match publishEach val opts context' rest with
      | .error e => .error e
      | .ok (rs, c'') => .ok (r :: rs, c'')

/-- `Adapters.publish.method` (tendon.js lines 493-509): split the publish
attribute on `/` and resolve each target through `ctx` with the new value and
an options payload `{ source: uuid }` built from the element's identity
attribute. -/
def publishMethod (context : JSVal) (pubsAttr : String) (uuidAttr : Option String)
    (val : JSVal) : Except JSErr (List JSVal × JSVal) :=
  publishEach val (.obj [("source", attrToVal uuidAttr)]) context (splitChar '/' pubsAttr)

/-- The three deferred init triggers scheduled by the `Tendon` constructor
(tendon.js lines 105-107), fired in FIFO order by the task queue. -/
def initSequence : List String := ["init:before", "init", "init:after"]

/-- The trigger event each built-in adapter is bound to
(`adapter.event || 'init'`, tendon.js line 193 and the adapter definitions). -/
def adapterEvent : String → String
  | "get" => "init:before"
  | "template" => "change:js"
  | "set" => "change:js"
  | "auto-render" => "init:after"
  | "uuid" => "init"
  | "publish" => "change:html"
  | "listen" => "init"
  | "subscribe" => "init"
  | _ => "init"

/-- The order in which the bound adapters' methods run during setup for one
element: each trigger of `initSequence` fires in turn and synchronously
invokes the handlers bound to it (`Tendon.prototype.setup` lines 204-215).
Adapters bound to non-init events (`change:js`, `change:html`) never run
during the init sequence. -/
def initRunOrder (bound : List String) : List String :=
  (initSequence.map (fun ev => bound.filter (fun name => adapterEvent name == ev))).flatten

/-- The value reconstructed from a little-endian digit list. -/
def ofRevDigits : List Nat → Nat
  | [] => 0
  | d :: rest => d + 10 * ofRevDigits rest

/-! ## Supporting lemmas -/

theorem splitCharAux_of_not_mem (sep : Char) (cs : List Char) (h : ∀ c ∈ cs, c ≠ sep) :
    splitCharAux sep cs = [cs] := by
  induction cs with
  | nil => rfl
  | cons c rest ih =>
    have hrest : ∀ c ∈ rest, c ≠ sep := fun x hx => h x (List.mem_cons_of_mem _ hx)
    simp only [splitCharAux, ih hrest]
    rw [if_neg (h c (List.mem_cons_self c rest))]

theorem splitChar_of_not_mem (sep : Char) (s : String) (h : ∀ c ∈ s.data, c ≠ sep) :
    splitChar sep s = [s] := by
  simp only [splitChar, splitCharAux_of_not_mem sep s.data h, List.map_cons, List.map_nil]

theorem attrGet_attrSet_self (el : Elem) (k v : String) :
    attrGet (attrSet el k v) k = some v := by
  rcases el with ⟨attrs⟩
  simp only [attrGet, attrSet]
  induction attrs with
  | nil => simp [attrSetField]
  | cons kv rest ih =>
    by_cases hk : kv.1 == k
    · rcases kv with ⟨k', v'⟩
      simp only [attrSetField, hk, if_true]
      simp [List.find?]
    · rcases kv with ⟨k', v'⟩
      simp only [attrSetField] at *
      rw [if_neg (by simpa using hk)]
      simpa [List.find?, hk] using ih

theorem ofRevDigits_natToRevDigits (fuel : Nat) :
    ∀ n, n ≤ fuel → ofRevDigits (natToRevDigits fuel n) = n := by
  induction fuel with
  | zero =>
    intro n hn
    have : n = 0 := Nat.le_zero.mp hn
    subst this
    rfl
  | succ fuel ih =>
    intro n hn
    cases n with
    | zero => rfl
    | succ m =>
      have hdiv : (m + 1) / 10 ≤ fuel := by
        have := Nat.div_lt_self (Nat.succ_pos m) (by norm_num : 1 < 10)
        omega
      simp only [natToRevDigits, ofRevDigits, ih _ hdiv]
      exact Nat.mod_add_div (m + 1) 10

theorem natToRevDigits_lt_ten (fuel : Nat) :
    ∀ n, ∀ d ∈ natToRevDigits fuel n, d < 10 := by
  induction fuel with
  | zero => intro n d hd; simp [natToRevDigits] at hd
  | succ fuel ih =>
    intro n d hd
    cases n with
    | zero => simp [natToRevDigits] at hd
    | succ m =>
      simp only [natToRevDigits, List.mem_cons] at hd
      rcases hd with h | h
      · subst h; exact Nat.mod_lt _ (by norm_num)
      · exact ih _ _ h

theorem digitChar_inj_of_lt (a b : Nat) (ha : a < 10) (hb : b < 10)
    (h : Nat.digitChar a = Nat.digitChar b) : a = b := by
  revert h
  interval_cases a <;> interval_cases b <;> decide

theorem map_digitChar_inj :
    ∀ (l1 l2 : List Nat), (∀ d ∈ l1, d < 10) → (∀ d ∈ l2, d < 10) →
      l1.map Nat.digitChar = l2.map Nat.digitChar → l1 = l2 := by
  intro l1
  induction l1 with
  | nil =>
    intro l2 _ _ h
    cases l2 with
    | nil => rfl
    | cons b bs => simp at h
  | cons a as ih =>
    intro l2 h1 h2 h
    cases l2 with
    | nil => simp at h
    | cons b bs =>
      simp only [List.map_cons, List.cons.injEq] at h
      have hab : a = b :=
        digitChar_inj_of_lt a b (h1 a (List.mem_cons_self a as))
          (h2 b (List.mem_cons_self b bs)) h.1
      have : as = bs :=
        ih bs (fun d hd => h1 d (List.mem_cons_of_mem _ hd))
          (fun d hd => h2 d (List.mem_cons_of_mem _ hd)) h.2
      rw [hab, this]

theorem natRepr_succ_inj (a b : Nat) (h : natRepr (a + 1) = natRepr (b + 1)) : a = b := by
  simp only [natRepr, Nat.succ_ne_zero, if_false] at h
  have hdata := congrArg String.data h
  simp only at hdata
  have hrev :
      (natToRevDigits (a + 1) (a + 1)).reverse = (natToRevDigits (b + 1) (b + 1)).reverse :=
    map_digitChar_inj _ _
      (fun d hd => natToRevDigits_lt_ten _ _ d (List.mem_reverse.mp hd))
      (fun d hd => natToRevDigits_lt_ten _ _ d (List.mem_reverse.mp hd)) hdata
  have hdl : natToRevDigits (a + 1) (a + 1) = natToRevDigits (b + 1) (b + 1) :=
    List.reverse_injective hrev
  have := congrArg ofRevDigits hdl
  rw [ofRevDigits_natToRevDigits _ _ (Nat.le_refl _),
    ofRevDigits_natToRevDigits _ _ (Nat.le_refl _)] at this
  omega

theorem natRepr_succ_ne_empty (n : Nat) : natRepr (n + 1) ≠ "" := by
  simp only [natRepr, Nat.succ_ne_zero, if_false]
  intro h
  have hdata := congrArg String.data h
  simp [natToRevDigits] at hdata

theorem append_natRepr_succ_ne_empty (pre : String) (n : Nat) :
    pre ++ natRepr (n + 1) ≠ "" := by
  intro h
  apply natRepr_succ_ne_empty n
  have hdata := congrArg String.data h
  rw [String.data_append] at hdata
  have hnil : (natRepr (n + 1)).data = [] := (List.append_eq_nil.mp hdata).2
  exact String.ext hnil

theorem string_append_left_cancel {pre x y : String} (h : pre ++ x = pre ++ y) : x = y := by
  have hd := congrArg String.data h
  rw [String.data_append, String.data_append] at hd
  exact String.ext (List.append_cancel_left hd)

/-- Dispatch lemma: when the literal-fallback branch does not fire (either
the path is dotted, or its bare last segment is an own key of the context),
`ctx` reduces to `ctxCore` on the parsed pieces. -/
theorem ctx_eq_ctxCore (context : JSVal) (path : String) (args : List JSVal)
    (hne : path ≠ "")
    (hfb : (popLast (splitChar '.' path)).1 = [] →
        hasOwn context (popLast (splitChar '.' path)).2 = .ok true) :
    ctx context path args
      = ctxCore context (popLast (splitChar '.' path)).1
          ((splitChar ':' (popLast (splitChar '.' path)).2).headD "")
          (splitChar ','
            (joinChar ':' ((splitChar ':' (popLast (splitChar '.' path)).2).drop 1)))
          args := by
  unfold ctx
  rw [if_neg hne]
  simp only []
  by_cases hp : (popLast (splitChar '.' path)).1 = []
  · rw [hp, hfb hp]
    simp
  · have hie : ((popLast (splitChar '.' path)).1).isEmpty = false := by
      rcases h : (popLast (splitChar '.' path)).1 with _ | ⟨a, l⟩
      · exact absurd h hp
      · rfl
    simp [hie]

/-- When the property-chain loop hits an absent own property, `ctxCore`
short-circuits with the `null` sentinel and an unchanged context. -/
theorem ctxCore_walk_none (context : JSVal) (parts : List String) (prop : String)
    (cmdArgs0 : List String) (args : List JSVal)
    (hwalk : walk context parts = .ok none) :
    ctxCore context parts prop cmdArgs0 args = .ok (.null, context) := by
  unfold ctxCore
  rw [hwalk]

/-- When the resolved property is not callable and the supplied value is
falsy, `ctxCore` is a pure get: it returns the current property value and
leaves the context unchanged. -/
theorem ctxCore_falsy_get (context : JSVal) (parts : List String) (prop : String)
    (cmdArgs0 : List String) (target pv value : JSVal) (extra : List JSVal)
    (hwalk : walk context parts = .ok (some target))
    (hpv : getProp target prop = .ok pv)
    (hnotfn : ∀ f, pv ≠ .fn f)
    (hfalsy : truthy value = false) :
    ctxCore context parts prop cmdArgs0 (value :: extra) = .ok (pv, context) := by
  unfold ctxCore
  rw [hwalk]
  simp only [hpv]
  cases pv with
  | fn f => exact absurd rfl (hnotfn f)
  | null => simp [hfalsy]
  | undefined => simp [hfalsy]
  | bool b => simp [hfalsy]
  | num n => simp [hfalsy]
  | str s => simp [hfalsy]
  | arr es => simp [hfalsy]
  | obj fs => simp [hfalsy]

/-! ## Claim theorems -/

/-- C1: the claimed set-then-get round trip through `"s:p"` fails on the
code.  With a context holding a subject `s` whose plain property `p` is
`"old"`, resolving `"s:p"` with value `"V"` hits the literal-fallback branch
(`context.hasOwnProperty("s:p")` is checked against the whole colon segment),
returns the path string verbatim, performs no assignment, and a subsequent
resolution of `"s:p"` again returns the path string — not `"V"`. -/
theorem pathColonSetGet_returns_literal :
    ctx (.obj [("s", .obj [("p", .str "old")])]) "s:p" [.str "V"]
      = .ok (.str "s:p", .obj [("s", .obj [("p", .str "old")])])
    ∧ ctx (.obj [("s", .obj [("p", .str "old")])]) "s:p" []
      = .ok (.str "s:p", .obj [("s", .obj [("p", .str "old")])])
    ∧ (JSVal.str "s:p") ≠ .str "V" :=
  ⟨rfl, rfl, by simp⟩

/-- C3: the publish flow with the documented directive form
`"model:username"` performs no set.  `Adapters.publish` hands the directive
to `ctx`, which returns it verbatim (literal fallback), so the model keeps
its old value and no options payload ever reaches a setter. -/
theorem publish_colon_target_performs_no_set :
    publishMethod (.obj [("model", .obj [("username", .str "bob")])])
        "model:username" (some "tendon-1") (.str "alice")
      = .ok ([.str "model:username"], .obj [("model", .obj [("username", .str "bob")])])
    ∧ (JSVal.obj [("model", .obj [("username", .str "bob")])])
        ≠ .obj [("model", .obj [("username", .str "alice")])] :=
  ⟨rfl, by simp⟩

/-- C5 counterexample: the colon form `"subject:methodName:arg1,arg2"`
does not invoke `methodName` — it returns the path string verbatim (the
literal fallback checks the whole colon segment against the context), which
differs from the method's result. -/
theorem method_colon_path_returns_literal :
    ctx (.obj [("subject", .obj [("methodName", .fn .argsToArr)])])
        "subject:methodName:arg1,arg2" []
      = .ok (.str "subject:methodName:arg1,arg2",
             .obj [("subject", .obj [("methodName", .fn .argsToArr)])])
    ∧ (JSVal.str "subject:methodName:arg1,arg2")
        ≠ applyFn .argsToArr (.obj [("methodName", .fn .argsToArr)])
            [.str "arg1", .str "arg2"] :=
  ⟨rfl, by simp [applyFn]⟩

/-- C5 as amended: method invocation works through the dotted form
`"subject.methodName:arg1,arg2"`: for every context and every subject object
reached by the dotted traversal whose property (the segment before the first
`:` of the last path piece) is callable, the callable is invoked on that
subject with the parsed literal arguments (the trimmed comma-split of the
colon remainder) concatenated with any caller-supplied extra arguments, and
its result is returned with the context untouched.  The colon form without
the dot instead returns the path string verbatim (the counterexample). -/
theorem dotted_method_path_invokes_with_parsed_args (context target : JSVal)
    (path : String) (f : JSFn) (extras : List JSVal) (prop : String)
    (restCmds : List String)
    (hne : path ≠ "")
    (hfb : (popLast (splitChar '.' path)).1 = [] →
        hasOwn context (popLast (splitChar '.' path)).2 = .ok true)
    (hwalk : walk context (popLast (splitChar '.' path)).1 = .ok (some target))
    (hcmd : splitChar ':' (popLast (splitChar '.' path)).2 = prop :: restCmds)
    (hpv : getProp target prop = .ok (.fn f)) :
    ctx context path extras
      = .ok (applyFn f target
               (((splitChar ',' (joinChar ':' restCmds)).map jsTrim).map JSVal.str
                 ++ extras),
             context) := by
  rw [ctx_eq_ctxCore context path extras hne hfb]
  rw [hcmd]
  unfold ctxCore
  rw [hwalk]
  simp only [List.headD_cons, List.drop_succ_cons, List.drop_zero, hpv]

/-- Witness for the amended C5: a subject with a further field and the
receiver-returning callable, showing the method really is applied to the
traversed subject object; the parsed arguments are `["arg1", "arg2"]`. -/
theorem dotted_method_path_invokes_with_parsed_args_witness :
    ctx (.obj [("subject", .obj [("methodName", .fn .thisFn), ("other", .num 7)])])
        "subject.methodName:arg1,arg2" []
      = .ok (.obj [("methodName", .fn .thisFn), ("other", .num 7)],
             .obj [("subject",
               .obj [("methodName", .fn .thisFn), ("other", .num 7)])]) :=
  dotted_method_path_invokes_with_parsed_args
    (.obj [("subject", .obj [("methodName", .fn .thisFn), ("other", .num 7)])])
    (.obj [("methodName", .fn .thisFn), ("other", .num 7)])
    "subject.methodName:arg1,arg2" .thisFn [] "methodName" ["arg1,arg2"]
    (by decide) (fun h => absurd h (by decide)) rfl rfl rfl

/-- C6 counterexample: the empty path contains no `.` and is not a key of
the empty context, yet resolution returns the `null` sentinel (the
`if (!path) return null` guard), not the input string. -/
theorem empty_path_returns_null_sentinel :
    ctx (.obj []) "" [] = .ok (.null, .obj [])
    ∧ (∀ c ∈ ("" : String).data, c ≠ '.')
    ∧ hasOwn (.obj []) "" = .ok false
    ∧ (Except.ok (JSVal.null, JSVal.obj []) : Except JSErr (JSVal × JSVal))
        ≠ .ok (.str "", .obj []) :=
  ⟨rfl, by simp, rfl, by simp⟩

/-- C6 as amended: for every nonempty path with no `.` whose name is not an
own key of the context, resolution returns the input path string verbatim
and leaves the context unchanged. -/
theorem literal_fallback_nonempty_path (context : JSVal) (path : String)
    (args : List JSVal) (hne : path ≠ "") (hnodot : ∀ c ∈ path.data, c ≠ '.')
    (hkey : hasOwn context path = .ok false) :
    ctx context path args = .ok (.str path, context) := by
  unfold ctx
  rw [if_neg hne, splitChar_of_not_mem '.' path hnodot]
  simp only [popLast, List.isEmpty_nil, if_true, hkey]

/-- Witness for the amended C6 at a concrete input. -/
theorem literal_fallback_nonempty_path_witness :
    ctx (.obj [("model", .obj [])]) "true" []
      = .ok (.str "true", .obj [("model", .obj [])]) :=
  literal_fallback_nonempty_path (.obj [("model", .obj [])]) "true" []
    (by decide) (by decide) rfl

/-- C2: the subscription handler's echo guard.  For an element whose
identity attribute is `token`, a delivered event whose options payload
carries `source === token` invokes no `change:js` handler; a payload whose
source differs (including an absent source field) and an absent payload both
invoke every handler, in order, with `[model, changed, options]`. -/
theorem subscribe_source_guard_suppresses_only_own_echo {α : Type} (token : String)
    (methods : List α) (model changed : JSVal) (src : JSVal) :
    subscribeCallback (some token) methods model changed (some ⟨.str token⟩) = []
    ∧ (src ≠ .str token →
        subscribeCallback (some token) methods model changed (some ⟨src⟩)
          = methods.map (fun m => (m, model, changed, some (SubOptions.mk src))))
    ∧ subscribeCallback (some token) methods model changed none
        = methods.map (fun m => (m, model, changed, (none : Option SubOptions))) := by
  refine ⟨?_, ?_, ?_⟩
  · simp [subscribeCallback, subscribeGuard, strictEqAttr]
  · intro hsrc
    have hguard : strictEqAttr src (some token) = false := by
      cases src with
      | str s =>
        simp only [strictEqAttr, beq_eq_false_iff_ne, ne_eq]
        intro h
        exact hsrc (by rw [h])
      | null => rfl
      | undefined => rfl
      | bool b => rfl
      | num n => rfl
      | arr es => rfl
      | obj fs => rfl
      | fn f => rfl
    simp [subscribeCallback, subscribeGuard, hguard]
  · simp [subscribeCallback, subscribeGuard]

/-- Witness for C2 at a concrete input: the own echo is suppressed, a
source-less payload and an absent payload are delivered. -/
theorem subscribe_source_guard_witness :
    subscribeCallback (some "tendon-1") [(0 : Nat)] .null .null
        (some ⟨.str "tendon-1"⟩) = []
    ∧ subscribeCallback (some "tendon-1") [(0 : Nat)] .null .null (some ⟨.undefined⟩)
        = [(0, .null, .null, some (SubOptions.mk .undefined))]
    ∧ subscribeCallback (some "tendon-1") [(0 : Nat)] .null .null none
        = [(0, .null, .null, none)] :=
  ⟨(subscribe_source_guard_suppresses_only_own_echo "tendon-1" [0] .null .null .undefined).1,
   (subscribe_source_guard_suppresses_only_own_echo "tendon-1" [0] .null .null .undefined).2.1
     (by simp),
   (subscribe_source_guard_suppresses_only_own_echo "tendon-1" [0] .null .null .undefined).2.2⟩

/-- C4 counterexample: for an element bound to `uuid`, `listen`, `subscribe`
and `auto-render`, the init sequence runs `auto-render` last (it is bound to
`init:after`, the third trigger), after the `subscribe` registration and the
`listen` publish-listener registration bound to `init` — not before them as
claimed. -/
theorem autoRender_runs_after_init_registrations :
    initRunOrder ["uuid", "listen", "subscribe", "auto-render"]
      = ["uuid", "listen", "subscribe", "auto-render"]
    ∧ (initRunOrder ["uuid", "listen", "subscribe", "auto-render"]).findIdx?
        (· == "auto-render") = some 3
    ∧ (initRunOrder ["uuid", "listen", "subscribe", "auto-render"]).findIdx?
        (· == "listen") = some 1
    ∧ (initRunOrder ["uuid", "listen", "subscribe", "auto-render"]).findIdx?
        (· == "subscribe") = some 2
    ∧ ¬ ((3 : Nat) < 1) ∧ ¬ ((3 : Nat) < 2) :=
  ⟨rfl, rfl, rfl, rfl, by omega, by omega⟩

/-- C4 as amended: the setup sequence performs the auto-render render last:
model-side subscriptions and DOM-side publish listeners are both registered
on the `init` trigger, strictly before the `auto-render` render fires on
`init:after`, so publish listeners do exist at the moment auto-render runs. -/
theorem init_registrations_precede_autoRender (bound : List String)
    (hsub : "subscribe" ∈ bound) (hlisten : "listen" ∈ bound) :
    ∃ l1 l2, initRunOrder bound = l1 ++ l2
      ∧ "subscribe" ∈ l1 ∧ "listen" ∈ l1 ∧ "auto-render" ∉ l1
      ∧ ("auto-render" ∈ bound → "auto-render" ∈ l2) := by
  refine ⟨bound.filter (fun n => adapterEvent n == "init:before")
      ++ bound.filter (fun n => adapterEvent n == "init"),
    bound.filter (fun n => adapterEvent n == "init:after"), ?_, ?_, ?_, ?_, ?_⟩
  · simp [initRunOrder, initSequence, List.append_assoc]
  · exact List.mem_append.mpr (Or.inr (List.mem_filter.mpr ⟨hsub, by decide⟩))
  · exact List.mem_append.mpr (Or.inr (List.mem_filter.mpr ⟨hlisten, by decide⟩))
  · intro hmem
    rcases List.mem_append.mp hmem with h | h
    · exact absurd (List.mem_filter.mp h).2 (by decide)
    · exact absurd (List.mem_filter.mp h).2 (by decide)
  · intro h
    exact List.mem_filter.mpr ⟨h, by decide⟩

/-- Witness for the amended C4 at a concrete adapter set. -/
theorem init_registrations_precede_autoRender_witness :
    ∃ l1 l2,
      initRunOrder ["get", "uuid", "listen", "subscribe", "auto-render"] = l1 ++ l2
      ∧ "subscribe" ∈ l1 ∧ "listen" ∈ l1 ∧ "auto-render" ∉ l1
      ∧ ("auto-render" ∈ ["get", "uuid", "listen", "subscribe", "auto-render"] →
          "auto-render" ∈ l2) :=
  init_registrations_precede_autoRender
    ["get", "uuid", "listen", "subscribe", "auto-render"] (by decide) (by decide)

/-- C7: for every dotted path in which the property-chain traversal meets a
segment that is not an own property of its holder, resolution does not throw,
short-circuits without reading or writing the final property (the context is
returned unchanged), and yields the `null` absence sentinel.  (The
`console.error` report is a log, outside the model.) -/
theorem invalid_intermediate_segment_returns_null (context : JSVal) (path : String)
    (args : List JSVal) (hne : path ≠ "")
    (hparts : (popLast (splitChar '.' path)).1 ≠ [])
    (hwalk : walk context (popLast (splitChar '.' path)).1 = .ok none) :
    ctx context path args = .ok (.null, context) := by
  rw [ctx_eq_ctxCore context path args hne (fun h => absurd h hparts)]
  exact ctxCore_walk_none _ _ _ _ _ hwalk

/-- Witness for C7: context `{ a: {} }`, path `"a.b.c"` — segment `b` is
absent on `{}`, so resolution returns `null` with the context intact. -/
theorem invalid_intermediate_segment_returns_null_witness :
    ctx (.obj [("a", .obj [])]) "a.b.c" [] = .ok (.null, .obj [("a", .obj [])]) :=
  invalid_intermediate_segment_returns_null (.obj [("a", .obj [])]) "a.b.c" []
    (by decide) (by decide) rfl

/-- C9: for every path resolving to a non-callable property, calling the
resolver with a falsy value argument performs no assignment: the context is
returned unchanged and the call returns the property's current value,
behaving as a get. -/
theorem falsy_value_resolves_as_get (context target pv value : JSVal) (path : String)
    (extra : List JSVal) (hne : path ≠ "")
    (hfb : (popLast (splitChar '.' path)).1 = [] →
        hasOwn context (popLast (splitChar '.' path)).2 = .ok true)
    (hwalk : walk context (popLast (splitChar '.' path)).1 = .ok (some target))
    (hpv : getProp target ((splitChar ':' (popLast (splitChar '.' path)).2).headD "")
        = .ok pv)
    (hnotfn : ∀ f, pv ≠ .fn f)
    (hfalsy : value = .num 0 ∨ value = .str "" ∨ value = .bool false ∨ value = .null) :
    ctx context path (value :: extra) = .ok (pv, context) := by
  have ht : truthy value = false := by
    rcases hfalsy with h | h | h | h <;> subst h <;> decide
  rw [ctx_eq_ctxCore context path (value :: extra) hne hfb]
  exact ctxCore_falsy_get _ _ _ _ _ _ _ _ hwalk hpv hnotfn ht

/-- Witness for C9: getting `"s.p"` with the falsy value `""` returns the
current value `"x"` and does not assign. -/
theorem falsy_value_resolves_as_get_witness :
    ctx (.obj [("s", .obj [("p", .str "x")])]) "s.p" [.str ""]
      = .ok (.str "x", .obj [("s", .obj [("p", .str "x")])]) :=
  falsy_value_resolves_as_get (.obj [("s", .obj [("p", .str "x")])])
    (.obj [("p", .str "x")]) (.str "x") (.str "") "s.p" []
    (by decide) (fun h => absurd h (by decide)) rfl rfl (fun f => by simp)
    (Or.inr (Or.inl rfl))

/-- C10: for every path whose final segment contains no `:` and resolves to
a callable property, the resolver invokes the function with a single
empty-string literal argument prepended before the caller-supplied extra
arguments: the empty colon remainder is comma-split into `[""]`, not
dropped. -/
theorem empty_colon_remainder_prepends_empty_string_arg (context target : JSVal)
    (path : String) (f : JSFn) (directArgs : List JSVal)
    (hne : path ≠ "")
    (hnocolon : ∀ c ∈ ((popLast (splitChar '.' path)).2).data, c ≠ ':')
    (hfb : (popLast (splitChar '.' path)).1 = [] →
        hasOwn context (popLast (splitChar '.' path)).2 = .ok true)
    (hwalk : walk context (popLast (splitChar '.' path)).1 = .ok (some target))
    (hpv : getProp target (popLast (splitChar '.' path)).2 = .ok (.fn f)) :
    ctx context path directArgs
      = .ok (applyFn f target (.str "" :: directArgs), context) := by
  rw [ctx_eq_ctxCore context path directArgs hne hfb]
  rw [splitChar_of_not_mem ':' _ hnocolon]
  unfold ctxCore
  rw [hwalk]
  simp only [List.headD_cons, hpv]
  rfl

/-- Witness for C10: a bare callable path `"m"` is invoked with `[""]`. -/
theorem empty_colon_remainder_prepends_empty_string_arg_witness :
    ctx (.obj [("m", .fn .argsToArr)]) "m" []
      = .ok (.arr [.str ""], .obj [("m", .fn .argsToArr)]) :=
  empty_colon_remainder_prepends_empty_string_arg (.obj [("m", .fn .argsToArr)])
    (.obj [("m", .fn .argsToArr)]) "m" .argsToArr []
    (by decide) (by decide) (fun _ => rfl) rfl rfl

/-- C8: identity tokens are stable and distinct.  Calling the identity
operation twice on any element yields the same token (the first call
persists it as the `uuid` attribute, the second returns it unchanged), and
two distinct elements without pre-existing identity attributes, identified
in sequence against the shared `_.uniqueId` counter, receive different
tokens. -/
theorem identity_tokens_stable_and_distinct (pre : String) (el e1 e2 : Elem)
    (c c0 : Nat)
    (h1 : jsFalsyOptStr (attrGet e1 (pre ++ "uuid")) = true)
    (h2 : jsFalsyOptStr (attrGet e2 (pre ++ "uuid")) = true) :
    (identify pre (identify pre el c).2.1 (identify pre el c).2.2).1
        = (identify pre el c).1
    ∧ (identify pre e1 c0).1 ≠ (identify pre e2 (identify pre e1 c0).2.2).1 := by
  constructor
  · unfold identify uuidMethod
    by_cases hf : jsFalsyOptStr (attrGet el (pre ++ "uuid")) = true
    · simp only [hf, if_true, uniqueId]
      rw [attrGet_attrSet_self]
      have hne : (pre ++ natRepr (c + 1)) ≠ "" := append_natRepr_succ_ne_empty pre c
      have : jsFalsyOptStr (some (pre ++ natRepr (c + 1))) = false := by
        simp [jsFalsyOptStr, hne]
      simp [this, attrGet_attrSet_self]
    · have hf' : jsFalsyOptStr (attrGet el (pre ++ "uuid")) = false :=
        Bool.eq_false_iff.mpr hf
      simp [hf']
  · unfold identify uuidMethod
    rw [h1]
    simp only [if_true, uniqueId]
    rw [attrGet_attrSet_self, h2]
    simp only [if_true]
    rw [attrGet_attrSet_self]
    simp only [Option.getD_some]
    intro h
    have := natRepr_succ_inj _ _ (string_append_left_cancel h)
    omega

/-- Witness for C8 at two fresh elements and counter `0`: the repeated call
returns `"tendon-1"` again, and the second element receives `"tendon-2"`. -/
theorem identity_tokens_stable_and_distinct_witness :
    (identify "tendon-" (identify "tendon-" ⟨[]⟩ 0).2.1 (identify "tendon-" ⟨[]⟩ 0).2.2).1
        = (identify "tendon-" ⟨[]⟩ 0).1
    ∧ (identify "tendon-" ⟨[("id", "x")]⟩ 0).1
        ≠ (identify "tendon-" ⟨[]⟩ (identify "tendon-" ⟨[("id", "x")]⟩ 0).2.2).1 :=
  identity_tokens_stable_and_distinct "tendon-" ⟨[]⟩ ⟨[("id", "x")]⟩ ⟨[]⟩ 0 0
    (by decide) (by decide)
